import Mathlib

/-!
Verification development for the go_marshal code generator
(tools/go_marshal/gomarshal) of the gVisor repository.

The development has two layers:

1. A shallow embedding of the generator itself
   (generator_interfaces.go, generator_interfaces_primitive_newtype.go):
   the generator state (emitted lines, recorded imports, recorded
   Marshallable references, potentially-non-packed accessors) and the
   functions acting on it.  Go switch statements become chains of string
   equality tests; fmt.Sprintf format strings are expanded by string
   concatenation.  The sourceBuffer indentation machinery is not among
   the provided sources, so emitted lines are recorded without leading
   indentation, and apostrophe characters occurring inside the original
   Go string literals are elided from the Lean literals.

2. A semantics of the code the generator emits for fixed-width scalar
   fields: for each of the nine primitive type names the emitted encode
   and decode statements are translated into executable Lean functions on
   integer values and byte lists (bytes are Nat, machine conversions are
   explicit mod 2 to the width).  The byte-order primitives
   usermem.ByteOrder.PutUintN / UintN live outside the provided sources
   and are modelled from the spec as little-endian.
-/

namespace GoMarshal

/-- State of the interface generator for one type, from the
interfaceGenerator struct: the emitted output (sourceBuffer, modelled as
the list of emitted lines), the receiver name r, the name of the type
being processed, and the three accumulation sets is / ms / as (Go maps
used as sets, modelled as duplicate-free lists). -/
structure interfaceGenerator where
  lines : List String
  r : String
  tName : String
  is : List String
  ms : List String
  as : List String
deriving Repr, DecidableEq

/-- Insertion into a Go map-used-as-a-set: a no-op when the key is
already present. -/
def insertSet (x : String) (s : List String) : List String :=
  if x ∈ s then s else s ++ [x]

/-- Name of the type the generator represents (typeName). -/
def typeName (g : interfaceGenerator) : String :=
  g.tName

/-- Append one emitted line to the output (emit on the sourceBuffer). -/
def emit (g : interfaceGenerator) (line : String) : interfaceGenerator :=
  { g with lines := g.lines ++ [line] }

/-- recordUsedMarshallable from generator_interfaces.go. -/
def recordUsedMarshallable (g : interfaceGenerator) (m : String) : interfaceGenerator :=
  { g with ms := insertSet m g.ms }

/-- recordUsedImport from generator_interfaces.go. -/
def recordUsedImport (g : interfaceGenerator) (i : String) : interfaceGenerator :=
  { g with is := insertSet i g.is }

/-- recordPotentiallyNonPackedField from generator_interfaces.go. -/
def recordPotentiallyNonPackedField (g : interfaceGenerator) (fieldName : String) : interfaceGenerator :=
  { g with as := insertSet fieldName g.as }

/-- fieldAccessor from generator_interfaces.go. -/
def fieldAccessor (g : interfaceGenerator) (n : String) : String :=
  g.r ++ "." ++ n

/-- scalarSize from generator_interfaces.go: size of the type named t,
with unknownSize = true when t is not one of the nine fixed-width
primitive type names. -/
def scalarSize (t : String) : Nat × Bool :=
  if t = "int8" ∨ t = "uint8" ∨ t = "byte" then (1, false)
  else if t = "int16" ∨ t = "uint16" then (2, false)
  else if t = "int32" ∨ t = "uint32" then (4, false)
  else if t = "int64" ∨ t = "uint64" then (8, false)
  else (0, true)

/-- shift from generator_interfaces.go. -/
def shift (g : interfaceGenerator) (bufVar : String) (n : Nat) : interfaceGenerator :=
  emit g (bufVar ++ " = " ++ bufVar ++ "[" ++ toString n ++ ":]\n")

/-- shiftDynamic from generator_interfaces.go. -/
def shiftDynamic (g : interfaceGenerator) (bufVar name : String) : interfaceGenerator :=
  emit g (bufVar ++ " = " ++ bufVar ++ "[" ++ name ++ ".SizeBytes():]\n")

/-- marshalScalar from generator_interfaces.go: emits the statements that
write a single scalar field to a byte slice. -/
def marshalScalar (g : interfaceGenerator) (accessor typ bufVar : String) : interfaceGenerator :=
  if typ = "int8" ∨ typ = "uint8" ∨ typ = "byte" then
    shift (emit g (bufVar ++ "[0] = byte(" ++ accessor ++ ")\n")) bufVar 1
  else if typ = "int16" ∨ typ = "uint16" then
    shift (emit (recordUsedImport g ("usermem"))
      ("usermem.ByteOrder.PutUint16(" ++ bufVar ++ "[:2], uint16(" ++ accessor ++ "))\n")) bufVar 2
  else if typ = "int32" ∨ typ = "uint32" then
    shift (emit (recordUsedImport g ("usermem"))
      ("usermem.ByteOrder.PutUint32(" ++ bufVar ++ "[:4], uint32(" ++ accessor ++ "))\n")) bufVar 4
  else if typ = "int64" ∨ typ = "uint64" then
    shift (emit (recordUsedImport g ("usermem"))
      ("usermem.ByteOrder.PutUint64(" ++ bufVar ++ "[:8], uint64(" ++ accessor ++ "))\n")) bufVar 8
  else
    shiftDynamic (emit g (accessor ++ ".MarshalBytes(" ++ bufVar ++ "[:" ++ accessor ++ ".SizeBytes()])\n"))
      bufVar accessor

/-- unmarshalScalar from generator_interfaces.go: emits the statements
that read a single scalar field from a byte slice.  In the default case
(a type that is not one of the nine primitives) the accessor is recorded
as potentially not packed. -/
def unmarshalScalar (g : interfaceGenerator) (accessor typ bufVar : String) : interfaceGenerator :=
  if typ = "int8" then
    shift (emit g (accessor ++ " = int8(" ++ bufVar ++ "[0])\n")) bufVar 1
  else if typ = "uint8" then
    shift (emit g (accessor ++ " = uint8(" ++ bufVar ++ "[0])\n")) bufVar 1
  else if typ = "byte" then
    shift (emit g (accessor ++ " = " ++ bufVar ++ "[0]\n")) bufVar 1
  else if typ = "int16" then
    shift (emit (recordUsedImport g ("usermem"))
      (accessor ++ " = int16(usermem.ByteOrder.Uint16(" ++ bufVar ++ "[:2]))\n")) bufVar 2
  else if typ = "uint16" then
    shift (emit (recordUsedImport g ("usermem"))
      (accessor ++ " = usermem.ByteOrder.Uint16(" ++ bufVar ++ "[:2])\n")) bufVar 2
  else if typ = "int32" then
    shift (emit (recordUsedImport g ("usermem"))
      (accessor ++ " = int32(usermem.ByteOrder.Uint32(" ++ bufVar ++ "[:4]))\n")) bufVar 4
  else if typ = "uint32" then
    shift (emit (recordUsedImport g ("usermem"))
      (accessor ++ " = usermem.ByteOrder.Uint32(" ++ bufVar ++ "[:4])\n")) bufVar 4
  else if typ = "int64" then
    shift (emit (recordUsedImport g ("usermem"))
      (accessor ++ " = int64(usermem.ByteOrder.Uint64(" ++ bufVar ++ "[:8]))\n")) bufVar 8
  else if typ = "uint64" then
    shift (emit (recordUsedImport g ("usermem"))
      (accessor ++ " = usermem.ByteOrder.Uint64(" ++ bufVar ++ "[:8])\n")) bufVar 8
  else
    recordPotentiallyNonPackedField
      (shiftDynamic
        (emit g (accessor ++ ".UnmarshalBytes(" ++ bufVar ++ "[:" ++ accessor ++ ".SizeBytes()])\n"))
        bufVar accessor)
      accessor

/-- Outcome of validating a primitive newtype declaration: the generator
either accepts a fixed-width primitive, aborts with a diagnostic
(abortAt; the source-position argument is elided), or logs and defers to
dispatch via the Marshallable interface (debugfAt). -/
inductive ValidationResult where
  | ok : ValidationResult
  | abort (msg : String) : ValidationResult
  | deferred (msg : String) : ValidationResult
deriving Repr, DecidableEq

/-- validatePrimitiveNewtype from generator_interfaces_primitive_newtype.go
(apostrophes in the diagnostic strings elided). -/
def validatePrimitiveNewtype (t : String) : ValidationResult :=
  if t = "int8" ∨ t = "uint8" ∨ t = "byte" ∨ t = "int16" ∨ t = "uint16" ∨
     t = "int32" ∨ t = "uint32" ∨ t = "int64" ∨ t = "uint64" then
    ValidationResult.ok
  else if t = "int" then
    ValidationResult.abort ("Type int has ambiguous width, use int32 or int64")
  else if t = "uint" then
    ValidationResult.abort ("Type uint has ambiguous width, use uint32 or uint64")
  else if t = "string" then
    ValidationResult.abort
      ("Type string is dynamically-sized and cannot be marshalled, use a fixed size byte array [...]byte instead")
  else
    ValidationResult.deferred
      ("Found derived type " ++ t ++ ", will attempt dispatch via marshal.Marshallable.\n")

/-- Whether a validation outcome is an abort (registration failure). -/
def isAbortResult : ValidationResult → Bool
  | .abort _ => true
  | _ => false

/-- The nine fixed-width primitive type names handled by the generator. -/
inductive PrimT where
  | int8 | uint8 | byte | int16 | uint16 | int32 | uint32 | int64 | uint64
deriving Repr, DecidableEq

/-- Go source name of a primitive type. -/
def primName : PrimT → String
  | .int8 => "int8"
  | .uint8 => "uint8"
  | .byte => "byte"
  | .int16 => "int16"
  | .uint16 => "uint16"
  | .int32 => "int32"
  | .uint32 => "uint32"
  | .int64 => "int64"
  | .uint64 => "uint64"

/-- Width in bytes of a primitive type. -/
def widthOf : PrimT → Nat
  | .int8 => 1
  | .uint8 => 1
  | .byte => 1
  | .int16 => 2
  | .uint16 => 2
  | .int32 => 4
  | .uint32 => 4
  | .int64 => 8
  | .uint64 => 8

/-- Whether a primitive type is signed. -/
def signedOf : PrimT → Bool
  | .int8 => true
  | .int16 => true
  | .int32 => true
  | .int64 => true
  | _ => false

/-- Go conversion of an integer value to the unsigned machine integer of
w bytes (uintN(v) and byte(v)): truncation mod 2 to the 8 w. -/
def truncUnsigned (w : Nat) (v : Int) : Nat :=
  (v % ((2 : Int) ^ (8 * w))).toNat

/-- Reinterpretation of an unsigned machine integer of w bytes as the
signed machine integer of the same width (Go conversion intN(u)):
values at or above 2 to the (8 w - 1) wrap to negative. -/
def toSigned (w : Nat) (n : Nat) : Int :=
  if n % 2 ^ (8 * w) < 2 ^ (8 * w - 1) then ((n % 2 ^ (8 * w) : Nat) : Int)
  else ((n % 2 ^ (8 * w) : Nat) : Int) - (2 : Int) ^ (8 * w)

/-- Modelled from the spec: usermem.ByteOrder.PutUintN writes an
unsigned value to w bytes in the one fixed byte order of the wire
format, little-endian (the usermem package is not among the provided
sources; the spec fixes one explicit byte order, e.g. little-endian). -/
def putUintLE : Nat → Nat → List Nat
  | 0, _ => []
  | w + 1, n => n % 256 :: putUintLE w (n / 256)

/-- Modelled from the spec: usermem.ByteOrder.UintN reads back an
unsigned value from little-endian bytes (inverse direction of
putUintLE). -/
def getUintLE : List Nat → Nat
  | [] => 0
  | b :: bs => b + 256 * getUintLE bs

/-- Semantics of the statements emitted by marshalScalar
(generator_interfaces.go lines 121-142) for each primitive type name:
the bytes appended to the destination buffer when marshalling a field
holding value v. -/
def marshalScalarSem : PrimT → Int → List Nat
  | .int8, v => [truncUnsigned 1 v]
  | .uint8, v => [truncUnsigned 1 v]
  | .byte, v => [truncUnsigned 1 v]
  | .int16, v => putUintLE 2 (truncUnsigned 2 v)
  | .uint16, v => putUintLE 2 (truncUnsigned 2 v)
  | .int32, v => putUintLE 4 (truncUnsigned 4 v)
  | .uint32, v => putUintLE 4 (truncUnsigned 4 v)
  | .int64, v => putUintLE 8 (truncUnsigned 8 v)
  | .uint64, v => putUintLE 8 (truncUnsigned 8 v)

/-- Semantics of the statements emitted by unmarshalScalar
(generator_interfaces.go lines 145-188) for each primitive type name:
the value assigned to the field accessor when unmarshalling from the
source buffer src. -/
def unmarshalScalarSem : PrimT → List Nat → Int
  | .int8, src => toSigned 1 (src.headD 0)
  | .uint8, src => ((src.headD 0 : Nat) : Int)
  | .byte, src => ((src.headD 0 : Nat) : Int)
  | .int16, src => toSigned 2 (getUintLE (src.take 2))
  | .uint16, src => ((getUintLE (src.take 2) : Nat) : Int)
  | .int32, src => toSigned 4 (getUintLE (src.take 4))
  | .uint32, src => ((getUintLE (src.take 4) : Nat) : Int)
  | .int64, src => toSigned 8 (getUintLE (src.take 8))
  | .uint64, src => ((getUintLE (src.take 8) : Nat) : Int)

/-- Semantics of the statements emitted by marshalPrimitiveScalar
(generator_interfaces_primitive_newtype.go lines 27-46) for each
primitive underlying type: the bytes written for a newtype instance
whose underlying scalar value is v (the pointer dereference on the
receiver does not change the value). -/
def marshalPrimitiveScalarSem : PrimT → Int → List Nat
  | .int8, v => [truncUnsigned 1 v]
  | .uint8, v => [truncUnsigned 1 v]
  | .byte, v => [truncUnsigned 1 v]
  | .int16, v => putUintLE 2 (truncUnsigned 2 v)
  | .uint16, v => putUintLE 2 (truncUnsigned 2 v)
  | .int32, v => putUintLE 4 (truncUnsigned 4 v)
  | .uint32, v => putUintLE 4 (truncUnsigned 4 v)
  | .int64, v => putUintLE 8 (truncUnsigned 8 v)
  | .uint64, v => putUintLE 8 (truncUnsigned 8 v)

/-- Semantics of the statements emitted by unmarshalPrimitiveScalar
(generator_interfaces_primitive_newtype.go lines 49-84): the value
stored through the receiver pointer; the typeCast conversion to the
newtype is the identity on the underlying value. -/
def unmarshalPrimitiveScalarSem : PrimT → List Nat → Int
  | .int8, src => toSigned 1 (src.headD 0)
  | .uint8, src => ((src.headD 0 : Nat) : Int)
  | .byte, src => ((src.headD 0 : Nat) : Int)
  | .int16, src => toSigned 2 (getUintLE (src.take 2))
  | .uint16, src => ((getUintLE (src.take 2) : Nat) : Int)
  | .int32, src => toSigned 4 (getUintLE (src.take 4))
  | .uint32, src => ((getUintLE (src.take 4) : Nat) : Int)
  | .int64, src => toSigned 8 (getUintLE (src.take 8))
  | .uint64, src => ((getUintLE (src.take 8) : Nat) : Int)

/-- A valid instance of a primitive type: an integer in the range of the
corresponding machine integer. -/
def validVal (t : PrimT) (v : Int) : Prop :=
  if signedOf t then
    -((2 : Int) ^ (8 * widthOf t - 1)) ≤ v ∧ v < (2 : Int) ^ (8 * widthOf t - 1)
  else
    0 ≤ v ∧ v < (2 : Int) ^ (8 * widthOf t)

instance (t : PrimT) (v : Int) : Decidable (validVal t v) := by
  unfold validVal
  split <;> exact inferInstance

/-- marshalPrimitiveScalar from generator_interfaces_primitive_newtype.go:
emits the statements writing a single primitive newtype receiver to a
byte slice. -/
def marshalPrimitiveScalar (g : interfaceGenerator) (accessor typ bufVar : String) : interfaceGenerator :=
  if typ = "int8" ∨ typ = "uint8" ∨ typ = "byte" then
    emit g (bufVar ++ "[0] = byte(*" ++ accessor ++ ")\n")
  else if typ = "int16" ∨ typ = "uint16" then
    emit (recordUsedImport g ("usermem"))
      ("usermem.ByteOrder.PutUint16(" ++ bufVar ++ "[:2], uint16(*" ++ accessor ++ "))\n")
  else if typ = "int32" ∨ typ = "uint32" then
    emit (recordUsedImport g ("usermem"))
      ("usermem.ByteOrder.PutUint32(" ++ bufVar ++ "[:4], uint32(*" ++ accessor ++ "))\n")
  else if typ = "int64" ∨ typ = "uint64" then
    emit (recordUsedImport g ("usermem"))
      ("usermem.ByteOrder.PutUint64(" ++ bufVar ++ "[:8], uint64(*" ++ accessor ++ "))\n")
  else
    emit (emit (emit (emit g
      ("// Explicilty cast to the underlying type before dispatching to\n"))
      ("// MarshalBytes, so we dont recursively call " ++ accessor ++ ".MarshalBytes\n"))
      ("inner := (*" ++ typ ++ ")(" ++ accessor ++ ")\n"))
      ("inner.MarshalBytes(" ++ bufVar ++ "[:" ++ accessor ++ ".SizeBytes()])\n")

/-- unmarshalPrimitiveScalar from
generator_interfaces_primitive_newtype.go: emits the statements reading a
single primitive newtype receiver from a byte slice; typeCast is the
newtype name the decoded scalar is converted to. -/
def unmarshalPrimitiveScalar (g : interfaceGenerator) (accessor typ bufVar typeCast : String) : interfaceGenerator :=
  if typ = "int8" then
    emit g ("*" ++ accessor ++ " = " ++ typeCast ++ "(int8(" ++ bufVar ++ "[0]))\n")
  else if typ = "uint8" then
    emit g ("*" ++ accessor ++ " = " ++ typeCast ++ "(uint8(" ++ bufVar ++ "[0]))\n")
  else if typ = "byte" then
    emit g ("*" ++ accessor ++ " = " ++ typeCast ++ "(" ++ bufVar ++ "[0])\n")
  else if typ = "int16" then
    emit (recordUsedImport g ("usermem"))
      ("*" ++ accessor ++ " = " ++ typeCast ++ "(int16(usermem.ByteOrder.Uint16(" ++ bufVar ++ "[:2])))\n")
  else if typ = "uint16" then
    emit (recordUsedImport g ("usermem"))
      ("*" ++ accessor ++ " = " ++ typeCast ++ "(usermem.ByteOrder.Uint16(" ++ bufVar ++ "[:2]))\n")
  else if typ = "int32" then
    emit (recordUsedImport g ("usermem"))
      ("*" ++ accessor ++ " = " ++ typeCast ++ "(int32(usermem.ByteOrder.Uint32(" ++ bufVar ++ "[:4])))\n")
  else if typ = "uint32" then
    emit (recordUsedImport g ("usermem"))
      ("*" ++ accessor ++ " = " ++ typeCast ++ "(usermem.ByteOrder.Uint32(" ++ bufVar ++ "[:4]))\n")
  else if typ = "int64" then
    emit (recordUsedImport g ("usermem"))
      ("*" ++ accessor ++ " = " ++ typeCast ++ "(int64(usermem.ByteOrder.Uint64(" ++ bufVar ++ "[:8])))\n")
  else if typ = "uint64" then
    emit (recordUsedImport g ("usermem"))
      ("*" ++ accessor ++ " = " ++ typeCast ++ "(usermem.ByteOrder.Uint64(" ++ bufVar ++ "[:8]))\n")
  else
    emit (emit (emit (emit g
      ("// Explicilty cast to the underlying type before dispatching to\n"))
      ("// UnmarshalBytes, so we dont recursively call " ++ accessor ++ ".UnmarshalBytes\n"))
      ("inner := (*" ++ typ ++ ")(" ++ accessor ++ ")\n"))
      ("inner.UnmarshalBytes(" ++ bufVar ++ "[:" ++ accessor ++ ".SizeBytes()])\n")

/-- emitMarshallableForPrimitiveNewtype from
generator_interfaces_primitive_newtype.go lines 111-244: the full
sequence of lines emitted to implement marshal.Marshallable for a
newtype on a primitive, for underlying type name nt.  Indentation
(inIndent) is elided since the sourceBuffer implementation is not among
the provided sources; Go braces appear as their character escapes. -/
def emitMarshallableForPrimitiveNewtype (g0 : interfaceGenerator) (nt : String) : interfaceGenerator :=
  let r := g0.r
  let tn := typeName g0
  let g := emit g0 ("// SizeBytes implements marshal.Marshallable.SizeBytes.\n")
  let g := emit g ("func (" ++ r ++ " *" ++ tn ++ ") SizeBytes() int \x7b\n")
  let g := if (scalarSize nt).2 = false then
             emit g ("return " ++ toString (scalarSize nt).1 ++ "\n")
           else
             emit g ("return (*" ++ nt ++ ")(nil).SizeBytes()\n")
  let g := emit g ("\x7d\n\n")
  let g := emit g ("// MarshalBytes implements marshal.Marshallable.MarshalBytes.\n")
  let g := emit g ("func (" ++ r ++ " *" ++ tn ++ ") MarshalBytes(dst []byte) \x7b\n")
  let g := marshalPrimitiveScalar g r nt ("dst")
  let g := emit g ("\x7d\n\n")
  let g := emit g ("// UnmarshalBytes implements marshal.Marshallable.UnmarshalBytes.\n")
  let g := emit g ("func (" ++ r ++ " *" ++ tn ++ ") UnmarshalBytes(src []byte) \x7b\n")
  let g := unmarshalPrimitiveScalar g r nt ("src") (tn)
  let g := emit g ("\x7d\n\n")
  let g := emit g ("// Packed implements marshal.Marshallable.Packed.\n")
  let g := emit g ("func (" ++ r ++ " *" ++ tn ++ ") Packed() bool \x7b\n")
  let g := emit g ("// Scalar newtypes are always packed.\n")
  let g := emit g ("return true\n")
  let g := emit g ("\x7d\n\n")
  let g := emit g ("// MarshalUnsafe implements marshal.Marshallable.MarshalUnsafe.\n")
  let g := recordUsedImport g ("safecopy")
  let g := recordUsedImport g ("unsafe")
  let g := emit g ("func (" ++ r ++ " *" ++ tn ++ ") MarshalUnsafe(dst []byte) \x7b\n")
  let g := emit g ("safecopy.CopyIn(dst, unsafe.Pointer(" ++ r ++ "))\n")
  let g := emit g ("\x7d\n\n")
  let g := emit g ("// UnmarshalUnsafe implements marshal.Marshallable.UnmarshalUnsafe.\n")
  let g := recordUsedImport g ("safecopy")
  let g := recordUsedImport g ("unsafe")
  let g := emit g ("func (" ++ r ++ " *" ++ tn ++ ") UnmarshalUnsafe(src []byte) \x7b\n")
  let g := emit g ("safecopy.CopyOut(unsafe.Pointer(" ++ r ++ "), src)\n")
  let g := emit g ("\x7d\n\n")
  let g := emit g ("// CopyOut implements marshal.Marshallable.CopyOut.\n")
  let g := recordUsedImport g ("marshal")
  let g := recordUsedImport g ("usermem")
  let g := emit g ("func (" ++ r ++ " *" ++ tn ++ ") CopyOut(task marshal.Task, addr usermem.Addr) (int, error) \x7b\n")
  let g := emit g ("// Bypass escape analysis on " ++ r ++ ". The no-op arithmetic operation on the\n")
  let g := emit g ("// pointer makes the compiler think val doesnt depend on " ++ r ++ ".\n")
  let g := emit g ("// See src/runtime/stubs.go:noescape() in the golang toolchain.\n")
  let g := emit g ("ptr := unsafe.Pointer(" ++ r ++ ")\n")
  let g := emit g ("val := uintptr(ptr)\n")
  let g := emit g ("val = val^0\n\n")
  let g := emit g ("// Construct a slice backed by " ++ r ++ "s underlying memory.\n")
  let g := emit g ("var buf []byte\n")
  let g := emit g ("hdr := (*reflect.SliceHeader)(unsafe.Pointer(&buf))\n")
  let g := emit g ("hdr.Data = val\n")
  let g := emit g ("hdr.Len = " ++ r ++ ".SizeBytes()\n")
  let g := emit g ("hdr.Cap = " ++ r ++ ".SizeBytes()\n\n")
  let g := emit g ("len, err := task.CopyOutBytes(addr, buf)\n")
  let g := emit g ("// Since we bypassed the compilers escape analysis, indicate that " ++ r ++ "\n")
  let g := emit g ("// must live until after the CopyOutBytes.\n")
  let g := emit g ("runtime.KeepAlive(" ++ r ++ ")\n")
  let g := emit g ("return len, err\n")
  let g := emit g ("\x7d\n\n")
  let g := emit g ("// CopyIn implements marshal.Marshallable.CopyIn.\n")
  let g := recordUsedImport g ("marshal")
  let g := recordUsedImport g ("usermem")
  let g := emit g ("func (" ++ r ++ " *" ++ tn ++ ") CopyIn(task marshal.Task, addr usermem.Addr) (int, error) \x7b\n")
  let g := emit g ("// Bypass escape analysis on " ++ r ++ ". The no-op arithmetic operation on the\n")
  let g := emit g ("// pointer makes the compiler think val doesnt depend on " ++ r ++ ".\n")
  let g := emit g ("// See src/runtime/stubs.go:noescape() in the golang toolchain.\n")
  let g := emit g ("ptr := unsafe.Pointer(" ++ r ++ ")\n")
  let g := emit g ("val := uintptr(ptr)\n")
  let g := emit g ("val = val^0\n\n")
  let g := emit g ("// Construct a slice backed by " ++ r ++ "s underlying memory.\n")
  let g := emit g ("var buf []byte\n")
  let g := emit g ("hdr := (*reflect.SliceHeader)(unsafe.Pointer(&buf))\n")
  let g := emit g ("hdr.Data = val\n")
  let g := emit g ("hdr.Len = " ++ r ++ ".SizeBytes()\n")
  let g := emit g ("hdr.Cap = " ++ r ++ ".SizeBytes()\n\n")
  let g := emit g ("len, err := task.CopyInBytes(addr, buf)\n")
  let g := emit g ("// Since we bypassed the compilers escape analysis, indicate that " ++ r ++ "\n")
  let g := emit g ("// must live until after the CopyInBytes.\n")
  let g := emit g ("runtime.KeepAlive(" ++ r ++ ")\n")
  let g := emit g ("return len, err\n")
  let g := emit g ("\x7d\n\n")
  let g := emit g ("// WriteTo implements io.WriterTo.WriteTo.\n")
  let g := recordUsedImport g ("io")
  let g := emit g ("func (" ++ r ++ " *" ++ tn ++ ") WriteTo(w io.Writer) (int64, error) \x7b\n")
  let g := emit g ("// Bypass escape analysis on " ++ r ++ ". The no-op arithmetic operation on the\n")
  let g := emit g ("// pointer makes the compiler think val doesnt depend on " ++ r ++ ".\n")
  let g := emit g ("// See src/runtime/stubs.go:noescape() in the golang toolchain.\n")
  let g := emit g ("ptr := unsafe.Pointer(" ++ r ++ ")\n")
  let g := emit g ("val := uintptr(ptr)\n")
  let g := emit g ("val = val^0\n\n")
  let g := emit g ("// Construct a slice backed by " ++ r ++ "s underlying memory.\n")
  let g := emit g ("var buf []byte\n")
  let g := emit g ("hdr := (*reflect.SliceHeader)(unsafe.Pointer(&buf))\n")
  let g := emit g ("hdr.Data = val\n")
  let g := emit g ("hdr.Len = " ++ r ++ ".SizeBytes()\n")
  let g := emit g ("hdr.Cap = " ++ r ++ ".SizeBytes()\n\n")
  let g := emit g ("len, err := w.Write(buf)\n")
  let g := emit g ("// Since we bypassed the compilers escape analysis, indicate that " ++ r ++ "\n")
  let g := emit g ("// must live until after the Write.\n")
  let g := emit g ("runtime.KeepAlive(" ++ r ++ ")\n")
  let g := emit g ("return int64(len), err\n")
  emit g ("\x7d\n\n")

/-- Little-endian byte string of an unsigned value, written directly
from the byte-order rule of the spec: byte i holds u / 256 ^ i mod 256.
Used as the independent statement of the wire byte order, to be compared
with the codec putUintLE. -/
def leBytesSpec (w u : Nat) : List Nat :=
  (List.range w).map (fun i => u / 256 ^ i % 256)

/-- Modelled from the spec: the native in-memory image of a fixed-width
scalar holding value v, on the little-endian hosts the project supports
(the safecopy package and the runtime memory model are not among the
provided sources; the spec says the packed path inherits the host native
representation). -/
def nativeBytes (t : PrimT) (v : Int) : List Nat :=
  leBytesSpec (widthOf t) (truncUnsigned (widthOf t) v)

/-- Modelled from the spec: the scalar value whose native image is the
first widthOf t bytes of bs (inverse direction of nativeBytes). -/
def fromNativeBytes (t : PrimT) (bs : List Nat) : Int :=
  if signedOf t then toSigned (widthOf t) (getUintLE (bs.take (widthOf t)))
  else ((getUintLE (bs.take (widthOf t)) : Nat) : Int)

/-- Semantics of the emitted MarshalUnsafe body
(safecopy.CopyIn(dst, unsafe pointer to the receiver)): a raw bulk copy
of the receivers native byte image into dst. -/
def marshalUnsafeSem (t : PrimT) (v : Int) : List Nat :=
  nativeBytes t v

/-- Semantics of the emitted UnmarshalUnsafe body
(safecopy.CopyOut(unsafe pointer to the receiver, src)): the receiver
takes the value whose native image is the copied bytes. -/
def unmarshalUnsafeSem (t : PrimT) (bs : List Nat) : Int :=
  fromNativeBytes t bs

/-- Semantics of the SizeBytes method emitted by
emitMarshallableForPrimitiveNewtype (lines 112-121) when the underlying
type is a fixed-width scalar: a literal return of the scalarSize
constant, ignoring the receiver instance. -/
def newtypeSizeBytesSem (nt : String) (_instVal : Int) : Nat :=
  (scalarSize nt).1

/-- Semantics of the Packed method emitted by
emitMarshallableForPrimitiveNewtype (lines 137-143): the body is the
literal return true, ignoring the receiver instance. -/
def newtypePackedSem (_instVal : Int) : Bool :=
  true

/-- The slice header built in the emitted CopyOut / CopyIn / WriteTo
bodies (reflect.SliceHeader): data, length and capacity. -/
structure SliceHeader where
  data : List Nat
  len : Nat
  cap : Nat
deriving Repr, DecidableEq

/-- Semantics of the byte view constructed in the emitted CopyOut /
CopyIn / WriteTo bodies: hdr.Data aliases the receivers memory (its
native byte image) and hdr.Len and hdr.Cap are both set to
SizeBytes(). -/
def instanceByteView (t : PrimT) (v : Int) : SliceHeader :=
  { data := nativeBytes t v
    len := newtypeSizeBytesSem (primName t) v
    cap := newtypeSizeBytesSem (primName t) v }

/-- Semantics of the emitted CopyOut body (lines 163-189): the aliasing
byte view is passed to task.CopyOutBytes and the count and error it
reports are returned unchanged. -/
def newtypeCopyOutSem (copyOutBytes : List Nat → Nat × Option String) (t : PrimT) (v : Int) :
    Nat × Option String :=
  copyOutBytes (instanceByteView t v).data

/-- Semantics of the emitted CopyIn body (lines 191-216):
task.CopyInBytes fills the aliasing byte view (the argument of the
primitive is the view length); the instance afterwards holds the value
whose native image is the filled buffer, and the count and error are
returned unchanged. -/
def newtypeCopyInSem (copyInBytes : Nat → List Nat × (Nat × Option String)) (t : PrimT) (v : Int) :
    Int × (Nat × Option String) :=
  let r := copyInBytes (instanceByteView t v).len
  (fromNativeBytes t r.1, r.2)

/-- Semantics of the emitted WriteTo body (lines 218-243): w.Write
receives the aliasing byte view; the count is converted to int64 and the
error passed through. -/
def newtypeWriteToSem (write : List Nat → Nat × Option String) (t : PrimT) (v : Int) :
    Int × Option String :=
  let r := write (instanceByteView t v).data
  (((r.1 : Nat) : Int), r.2)

/-- Modelled from the spec: field-by-field marshalling of a flat
composite of primitive fields in declaration order (the struct generator
is not among the provided sources): the concatenation of the scalar
encodings emitted by marshalScalar, with no headers and no padding. -/
def marshalFieldsSem : List (PrimT × Int) → List Nat
  | [] => []
  | (t, v) :: fs => marshalScalarSem t v ++ marshalFieldsSem fs

/-- Modelled from the spec: field-by-field unmarshalling of a flat
composite, each field decoded by the unmarshalScalar code and the buffer
shifted by the field width (the shift emitted after each decode). -/
def unmarshalFieldsSem : List PrimT → List Nat → List Int
  | [], _ => []
  | t :: ts, bs => unmarshalScalarSem t bs :: unmarshalFieldsSem ts (bs.drop (widthOf t))

mutual
/-- Modelled from the spec: the Type Descriptor Model of the Layout
Analyzer (the struct and array generators are not among the provided
sources).  An external field is a by-name reference to another
Marshallable type whose size is not statically known; the generator
treats such fields as potentially not packed (the default case of
unmarshalScalar records them), so the model classifies them
non-packed. -/
inductive TypeDesc where
  | scalar (w : Nat)
  | newtypeOnScalar (w : Nat)
  | fixedArray (elem : TypeDesc) (len : Nat)
  | external (name : String)
  | composite (fields : FieldList)
/-- Ordered field list of a composite: name and type of each field in
declaration order. -/
inductive FieldList where
  | fnil
  | fcons (name : String) (t : TypeDesc) (rest : FieldList)
end

mutual
/-- Modelled from the spec: the packed verdict of the Layout Analyzer.
Scalars and newtypes over scalars are packed, a fixed array is packed
iff its element is, an external reference is potentially not packed, and
a composite is packed iff all its fields are. -/
def packedOf : TypeDesc → Bool
  | .scalar _ => true
  | .newtypeOnScalar _ => true
  | .fixedArray e _ => packedOf e
  | .external _ => false
  | .composite fs => packedFields fs
/-- All fields of the list are packed. -/
def packedFields : FieldList → Bool
  | .fnil => true
  | .fcons _ t rest => packedOf t && packedFields rest
end

/-- Modelled from the spec: the offendingFields diagnostic set of a
composite verdict — the names of the fields whose own verdict is not
packed. -/
def offendingFields : FieldList → List String
  | .fnil => []
  | .fcons n t rest => if packedOf t then offendingFields rest else n :: offendingFields rest

/-- Membership of a named field in a field list. -/
def fieldIn : FieldList → String → TypeDesc → Prop
  | .fnil, _, _ => False
  | .fcons n t rest, name, td => (n = name ∧ t = td) ∨ fieldIn rest name td

/-! ## Helper lemmas -/

theorem emit_as (g : interfaceGenerator) (l : String) : (emit g l).as = g.as := rfl

theorem emit_lines (g : interfaceGenerator) (l : String) : (emit g l).lines = g.lines ++ [l] := rfl

theorem recordUsedImport_as (g : interfaceGenerator) (i : String) :
    (recordUsedImport g i).as = g.as := rfl

theorem shift_as (g : interfaceGenerator) (b : String) (n : Nat) : (shift g b n).as = g.as := rfl

theorem shiftDynamic_as (g : interfaceGenerator) (b n : String) :
    (shiftDynamic g b n).as = g.as := rfl

theorem recordPotentiallyNonPackedField_as (g : interfaceGenerator) (f : String) :
    (recordPotentiallyNonPackedField g f).as = insertSet f g.as := rfl

theorem putUintLE_length (w n : Nat) : (putUintLE w n).length = w := by
  induction w generalizing n with
  | zero => simp [putUintLE]
  | succ w ih => simp [putUintLE, ih]

theorem getUintLE_putUintLE (w n : Nat) : getUintLE (putUintLE w n) = n % 256 ^ w := by
  induction w generalizing n with
  | zero =>
    simp only [putUintLE, getUintLE, pow_zero]
    omega
  | succ w ih =>
    simp only [putUintLE, getUintLE, ih]
    rw [pow_succ, Nat.mul_comm (256 ^ w) 256, Nat.mod_mul]

theorem putUintLE_eq_leBytesSpec (w n : Nat) : putUintLE w n = leBytesSpec w n := by
  induction w generalizing n with
  | zero => simp [putUintLE, leBytesSpec]
  | succ w ih =>
    simp only [putUintLE, leBytesSpec, List.range_succ_eq_map, List.map_cons, List.map_map]
    congr 1
    · simp
    · rw [ih]
      simp only [leBytesSpec]
      apply List.map_congr_left
      intro i _
      simp only [Function.comp_apply]
      rw [Nat.div_div_eq_div_mul, pow_succ, Nat.mul_comm 256 (256 ^ i)]

theorem leBytesSpec_length (w u : Nat) : (leBytesSpec w u).length = w := by
  simp [leBytesSpec]

theorem marshalScalarSem_length (t : PrimT) (v : Int) :
    (marshalScalarSem t v).length = widthOf t := by
  cases t <;> simp [marshalScalarSem, widthOf, putUintLE_length]

theorem roundtrip_scalar (t : PrimT) (v : Int) (h : validVal t v) :
    unmarshalScalarSem t (marshalScalarSem t v) = v := by
  cases t <;>
    simp only [validVal, signedOf, widthOf, if_true, if_false] at h <;>
    simp only [marshalScalarSem, unmarshalScalarSem, List.headD, List.take,
      putUintLE, getUintLE, toSigned, truncUnsigned] <;>
    norm_num at h ⊢ <;>
    omega

theorem unmarshalScalarSem_append (t : PrimT) (v : Int) (rest : List Nat) :
    unmarshalScalarSem t (marshalScalarSem t v ++ rest) =
      unmarshalScalarSem t (marshalScalarSem t v) := by
  cases t <;> simp [unmarshalScalarSem, marshalScalarSem, putUintLE]

theorem roundtrip_fields (fs : List (PrimT × Int))
    (h : ∀ p ∈ fs, validVal p.1 p.2) :
    unmarshalFieldsSem (fs.map Prod.fst) (marshalFieldsSem fs) = fs.map Prod.snd := by
  induction fs with
  | nil => rfl
  | cons p fs ih =>
    obtain ⟨t, v⟩ := p
    simp only [List.map_cons, marshalFieldsSem, unmarshalFieldsSem]
    congr 1
    · rw [unmarshalScalarSem_append, roundtrip_scalar t v (h (t, v) (by simp))]
    · rw [List.drop_left' (marshalScalarSem_length t v)]
      exact ih (fun p hp => h p (by simp [hp]))

theorem pow256 (w : Nat) : (256 : Nat) ^ w = 2 ^ (8 * w) := by
  rw [pow_mul]
  norm_num

theorem truncUnsigned_lt (w : Nat) (v : Int) : truncUnsigned w v < 2 ^ (8 * w) := by
  unfold truncUnsigned
  have h1 : 0 ≤ v % (2 : Int) ^ (8 * w) := Int.emod_nonneg v (by positivity)
  have h2 : v % (2 : Int) ^ (8 * w) < (2 : Int) ^ (8 * w) := Int.emod_lt_of_pos v (by positivity)
  have h3 : ((2 ^ (8 * w) : Nat) : Int) = (2 : Int) ^ (8 * w) := by push_cast; ring
  omega

theorem getUintLE_leBytesSpec (w u : Nat) : getUintLE (leBytesSpec w u) = u % 256 ^ w := by
  rw [← putUintLE_eq_leBytesSpec, getUintLE_putUintLE]

theorem leBytesSpec_take (w u : Nat) : (leBytesSpec w u).take w = leBytesSpec w u :=
  List.take_of_length_le (by rw [leBytesSpec_length])

theorem putUintLE_take (w n : Nat) : (putUintLE w n).take w = putUintLE w n :=
  List.take_of_length_le (by rw [putUintLE_length])

theorem toSigned_mod (w n : Nat) : toSigned w (n % 2 ^ (8 * w)) = toSigned w n := by
  unfold toSigned
  rw [Nat.mod_mod_of_dvd _ (dvd_refl _)]

theorem fromNative_nativeBytes (t : PrimT) (v : Int) :
    fromNativeBytes t (nativeBytes t v) = unmarshalScalarSem t (marshalScalarSem t v) := by
  cases t <;>
    simp only [fromNativeBytes, nativeBytes, unmarshalScalarSem, marshalScalarSem, widthOf,
      signedOf, leBytesSpec_take, getUintLE_leBytesSpec, putUintLE_take, getUintLE_putUintLE,
      pow256, toSigned_mod, List.headD_cons, if_true, if_false] <;>
    (try rw [Nat.mod_eq_of_lt (truncUnsigned_lt 1 v)]) <;>
    (try simp)

theorem nativeBytes_length (t : PrimT) (v : Int) :
    (nativeBytes t v).length = widthOf t := by
  simp [nativeBytes, leBytesSpec_length]

end GoMarshal

namespace GoMarshal

/-- C1: unmarshal is a left inverse of marshal.  For each of the nine
fixed-width scalar types and every valid instance value, the decode
emitted by unmarshalScalar inverts the encode emitted by marshalScalar;
and a flat composite marshalled field by field in declaration order
decodes back to exactly its list of field values. -/
theorem c1_unmarshal_left_inverse_of_marshal :
    (∀ (t : PrimT) (v : Int), validVal t v →
      unmarshalScalarSem t (marshalScalarSem t v) = v) ∧
    (∀ fs : List (PrimT × Int), (∀ p ∈ fs, validVal p.1 p.2) →
      unmarshalFieldsSem (fs.map Prod.fst) (marshalFieldsSem fs) = fs.map Prod.snd) :=
  ⟨roundtrip_scalar, roundtrip_fields⟩

theorem c1_roundtrip_witness :
    unmarshalScalarSem PrimT.int32 (marshalScalarSem PrimT.int32 (-7)) = -7 ∧
    unmarshalFieldsSem [PrimT.int32, PrimT.uint16]
      (marshalFieldsSem [(PrimT.int32, 1), (PrimT.uint16, 2)]) = [1, 2] :=
  ⟨c1_unmarshal_left_inverse_of_marshal.1 PrimT.int32 (-7) (by decide),
   c1_unmarshal_left_inverse_of_marshal.2 [(PrimT.int32, 1), (PrimT.uint16, 2)] (by decide)⟩

end GoMarshal

namespace GoMarshal

set_option maxRecDepth 100000 in
/-- C2: for a newtype over a fixed-width scalar the synthesized Packed
operation returns true, a constant independent of the instance (and the
generator emits the literal line return true in the Packed body for
every receiver and underlying type); the newtype marshal and unmarshal
operations produce exactly the bytes and values of the plain scalar
encode and decode, adding no extra fields or bytes. -/
theorem c2_newtype_scalar_reuse :
    (∀ v w : Int, newtypePackedSem v = true ∧ newtypePackedSem v = newtypePackedSem w) ∧
    (∀ (g : interfaceGenerator) (nt : String),
      ("return true\n") ∈ (emitMarshallableForPrimitiveNewtype g nt).lines) ∧
    (∀ (t : PrimT) (v : Int),
      marshalPrimitiveScalarSem t v = marshalScalarSem t v ∧
      (marshalPrimitiveScalarSem t v).length = widthOf t) ∧
    (∀ (t : PrimT) (bs : List Nat),
      unmarshalPrimitiveScalarSem t bs = unmarshalScalarSem t bs) := by
  refine ⟨fun v w => ⟨rfl, rfl⟩, ?_, ?_, ?_⟩
  · intro g nt
    simp [emitMarshallableForPrimitiveNewtype, emit, recordUsedImport,
      marshalPrimitiveScalar, unmarshalPrimitiveScalar, typeName]
  · intro t v
    refine ⟨by cases t <;> rfl, ?_⟩
    cases t <;> simp [marshalPrimitiveScalarSem, widthOf, putUintLE_length]
  · intro t bs
    cases t <;> rfl

/-- C3: on the field-by-field path every scalar wider than one byte is
encoded in the one fixed little-endian byte order, the same order for
widths 2, 4 and 8, and the decoder reads that same order back; every
1-byte scalar is copied verbatim as a single untransformed byte. -/
theorem c3_single_fixed_byte_order :
    (∀ (t : PrimT) (v : Int), 1 < widthOf t →
      marshalScalarSem t v = leBytesSpec (widthOf t) (truncUnsigned (widthOf t) v)) ∧
    (∀ (t : PrimT) (u : Nat), 1 < widthOf t → u < 2 ^ (8 * widthOf t) →
      unmarshalScalarSem t (leBytesSpec (widthOf t) u) =
        (if signedOf t then toSigned (widthOf t) u else (u : Int))) ∧
    (∀ (t : PrimT) (b : Nat), widthOf t = 1 → b < 256 →
      marshalScalarSem t (unmarshalScalarSem t [b]) = [b]) := by
  refine ⟨?_, ?_, ?_⟩
  · intro t v h
    cases t <;>
      first
      | exact absurd h (by decide)
      | simp [marshalScalarSem, widthOf, putUintLE_eq_leBytesSpec]
  · intro t u h hu
    cases t <;>
      first
      | exact absurd h (by decide)
      | (simp only [widthOf] at hu
         simp only [unmarshalScalarSem, widthOf, signedOf, leBytesSpec_take,
           getUintLE_leBytesSpec, pow256, toSigned_mod, if_true, if_false]
         try rw [Nat.mod_eq_of_lt hu]
         try simp)
  · intro t b h hb
    cases t <;>
      first
      | exact absurd h (by decide)
      | (simp only [marshalScalarSem, unmarshalScalarSem, List.headD_cons, truncUnsigned, toSigned]
         norm_num
         omega)

/-- C4: for the packed scalar newtypes, marshalUnsafe followed by
unmarshalUnsafe (a raw bulk transfer of the native byte
image) produces the same value as the field-by-field marshal and
unmarshal pair, and the bulk transfer moves exactly sizeBytes bytes. -/
theorem c4_unsafe_path_equals_codec_path (t : PrimT) (v : Int) :
    unmarshalUnsafeSem t (marshalUnsafeSem t v) =
      unmarshalScalarSem t (marshalScalarSem t v) ∧
    (marshalUnsafeSem t v).length = newtypeSizeBytesSem (primName t) v := by
  refine ⟨fromNative_nativeBytes t v, ?_⟩
  rw [show (marshalUnsafeSem t v).length = widthOf t from nativeBytes_length t v]
  cases t <;> rfl

end GoMarshal

namespace GoMarshal

theorem packedFields_mono : ∀ (fl : FieldList) (name : String) (td : TypeDesc),
    fieldIn fl name td → packedOf td = false →
    packedFields fl = false ∧ name ∈ offendingFields fl
  | .fnil, name, td, h, _ => absurd h (by simp [fieldIn])
  | .fcons n t rest, name, td, hin, hnp => by
    simp only [fieldIn] at hin
    rcases hin with ⟨hn, ht⟩ | hin
    · subst hn
      subst ht
      exact ⟨by simp [packedFields, hnp], by simp [offendingFields, hnp]⟩
    · have hrec := packedFields_mono rest name td hin hnp
      refine ⟨by simp [packedFields, hrec.1], ?_⟩
      simp only [offendingFields]
      split_ifs
      · exact hrec.2
      · exact List.mem_cons_of_mem _ hrec.2

theorem packedFields_iff : ∀ fl : FieldList,
    packedFields fl = true ↔
      ∀ (name : String) (td : TypeDesc), fieldIn fl name td → packedOf td = true
  | .fnil => by simp [packedFields, fieldIn]
  | .fcons n t rest => by
    have ih := packedFields_iff rest
    simp only [packedFields, Bool.and_eq_true, ih]
    constructor
    · rintro ⟨h1, h2⟩ name td hin
      simp only [fieldIn] at hin
      rcases hin with ⟨hn, ht⟩ | hin
      · subst hn; subst ht; exact h1
      · exact h2 name td hin
    · intro h
      exact ⟨h n t (Or.inl ⟨rfl, rfl⟩), fun name td hin => h name td (Or.inr hin)⟩

/-- C5: packedness is monotonic.  Any field whose own verdict is
non-packed (in particular a by-name external reference whose size is not
statically known) forces the enclosing composite to non-packed and is
recorded in the offending set; a composite is packed exactly when every
one of its fields is packed. -/
theorem c5_packedness_monotonic :
    (∀ (fl : FieldList) (name : String) (td : TypeDesc),
      fieldIn fl name td → packedOf td = false →
      packedOf (TypeDesc.composite fl) = false ∧ name ∈ offendingFields fl) ∧
    (∀ s : String, packedOf (TypeDesc.external s) = false) ∧
    (∀ fl : FieldList,
      packedOf (TypeDesc.composite fl) = true ↔
        ∀ (name : String) (td : TypeDesc), fieldIn fl name td → packedOf td = true) := by
  refine ⟨?_, fun s => rfl, ?_⟩
  · intro fl name td hin hnp
    have h := packedFields_mono fl name td hin hnp
    exact ⟨by simp [packedOf, h.1], h.2⟩
  · intro fl
    simpa only [packedOf] using packedFields_iff fl

theorem c5_monotonic_witness :
    packedOf (TypeDesc.composite
      (FieldList.fcons ("x") (TypeDesc.scalar 4)
        (FieldList.fcons ("f") (TypeDesc.external ("T")) FieldList.fnil))) = false ∧
    "f" ∈ offendingFields
      (FieldList.fcons ("x") (TypeDesc.scalar 4)
        (FieldList.fcons ("f") (TypeDesc.external ("T")) FieldList.fnil)) :=
  c5_packedness_monotonic.1 _ "f" (TypeDesc.external ("T"))
    (Or.inr (Or.inl ⟨rfl, rfl⟩)) rfl

end GoMarshal

namespace GoMarshal

/-- C6: validating the underlying type of a newtype aborts exactly for the
ambiguous-width scalars int and uint and the dynamically-sized string,
each with its specific diagnostic; every one of the nine fixed-width
scalars passes, and any other name passes optimistically with a deferred
dispatch via the Marshallable interface. -/
theorem c6_validate_primitive_newtype :
    (∀ name : String,
      isAbortResult (validatePrimitiveNewtype name) = true ↔
        (name = "int" ∨ name = "uint" ∨ name = "string")) ∧
    (∀ name : String, (scalarSize name).2 = false →
      validatePrimitiveNewtype name = ValidationResult.ok) ∧
    (validatePrimitiveNewtype ("int") =
       ValidationResult.abort ("Type int has ambiguous width, use int32 or int64") ∧
     validatePrimitiveNewtype ("uint") =
       ValidationResult.abort ("Type uint has ambiguous width, use uint32 or uint64") ∧
     validatePrimitiveNewtype ("string") =
       ValidationResult.abort
         ("Type string is dynamically-sized and cannot be marshalled, use a fixed size byte array [...]byte instead")) ∧
    (∀ name : String, (scalarSize name).2 = true →
      name ≠ "int" → name ≠ "uint" → name ≠ "string" →
      validatePrimitiveNewtype name =
        ValidationResult.deferred
          ("Found derived type " ++ name ++ ", will attempt dispatch via marshal.Marshallable.\n")) := by
  refine ⟨?_, ?_, ⟨rfl, rfl, rfl⟩, ?_⟩
  · intro name
    unfold validatePrimitiveNewtype
    split_ifs with h1 h2 h3 h4
    · rcases h1 with rfl | rfl | rfl | rfl | rfl | rfl | rfl | rfl | rfl <;> decide
    · subst h2; decide
    · subst h3; decide
    · subst h4; decide
    · simp [isAbortResult, h2, h3, h4]
  · intro name h
    have h9 : name = "int8" ∨ name = "uint8" ∨ name = "byte" ∨ name = "int16" ∨
        name = "uint16" ∨ name = "int32" ∨ name = "uint32" ∨ name = "int64" ∨
        name = "uint64" := by
      unfold scalarSize at h
      split_ifs at h with c1 c2 c3 c4
      all_goals simp_all
      all_goals tauto
    unfold validatePrimitiveNewtype
    rw [if_pos h9]
  · intro name h hint huint hstring
    have h9 : ¬(name = "int8" ∨ name = "uint8" ∨ name = "byte" ∨ name = "int16" ∨
        name = "uint16" ∨ name = "int32" ∨ name = "uint32" ∨ name = "int64" ∨
        name = "uint64") := by
      unfold scalarSize at h
      split_ifs at h with c1 c2 c3 c4
      all_goals simp_all
    unfold validatePrimitiveNewtype
    rw [if_neg h9, if_neg hint, if_neg huint, if_neg hstring]

theorem c6_validate_witness :
    validatePrimitiveNewtype ("int32") = ValidationResult.ok ∧
    isAbortResult (validatePrimitiveNewtype ("int")) = true ∧
    validatePrimitiveNewtype ("FileMode") =
      ValidationResult.deferred
        ("Found derived type " ++ "FileMode" ++ ", will attempt dispatch via marshal.Marshallable.\n") :=
  ⟨c6_validate_primitive_newtype.2.1 ("int32") (by decide),
   (c6_validate_primitive_newtype.1 ("int")).mpr (Or.inl rfl),
   c6_validate_primitive_newtype.2.2.2 ("FileMode") (by decide) (by decide) (by decide) (by decide)⟩

theorem c3_byte_order_witness :
    marshalScalarSem PrimT.uint32 5 =
      leBytesSpec (widthOf PrimT.uint32) (truncUnsigned (widthOf PrimT.uint32) 5) ∧
    unmarshalScalarSem PrimT.uint16 (leBytesSpec (widthOf PrimT.uint16) 513) =
      (if signedOf PrimT.uint16 then toSigned (widthOf PrimT.uint16) 513 else (513 : Int)) ∧
    marshalScalarSem PrimT.byte (unmarshalScalarSem PrimT.byte [200]) = [200] :=
  ⟨c3_single_fixed_byte_order.1 PrimT.uint32 5 (by decide),
   c3_single_fixed_byte_order.2.1 PrimT.uint16 513 (by decide) (by decide),
   c3_single_fixed_byte_order.2.2 PrimT.byte 200 (by decide) (by decide)⟩

/-- C7: the synthesized SizeBytes returns the scalarSize constant,
identical across instances and across calls, never depending on instance
content, and for a fixed-width scalar of width w in 1, 2, 4, 8 it equals
w, which is also the exact length of the marshalled encoding. -/
theorem c7_sizeBytes_constant (t : PrimT) :
    scalarSize (primName t) = (widthOf t, false) ∧
    (widthOf t = 1 ∨ widthOf t = 2 ∨ widthOf t = 4 ∨ widthOf t = 8) ∧
    (∀ v w : Int, newtypeSizeBytesSem (primName t) v = newtypeSizeBytesSem (primName t) w) ∧
    (∀ v : Int, newtypeSizeBytesSem (primName t) v = widthOf t) ∧
    (∀ v : Int, (marshalScalarSem t v).length = newtypeSizeBytesSem (primName t) v) := by
  refine ⟨by cases t <;> rfl, by cases t <;> decide, fun v w => rfl,
    by cases t <;> exact fun v => rfl, ?_⟩
  intro v
  rw [marshalScalarSem_length]
  cases t <;> rfl

/-- C8: CopyOut and CopyIn transfer exactly sizeBytes bytes through a
byte view aliasing the instance memory whose length and capacity are
both exactly sizeBytes, and they return the byte count and fault
condition reported by the underlying address-space primitive unchanged,
preserving partial progress. -/
theorem c8_copy_transfers_exact_view (t : PrimT) (v : Int)
    (copyOutBytes : List Nat → Nat × Option String)
    (copyInBytes : Nat → List Nat × (Nat × Option String)) :
    (instanceByteView t v).len = newtypeSizeBytesSem (primName t) v ∧
    (instanceByteView t v).cap = newtypeSizeBytesSem (primName t) v ∧
    (instanceByteView t v).data.length = newtypeSizeBytesSem (primName t) v ∧
    newtypeCopyOutSem copyOutBytes t v = copyOutBytes (nativeBytes t v) ∧
    (newtypeCopyInSem copyInBytes t v).2 =
      (copyInBytes (newtypeSizeBytesSem (primName t) v)).2 ∧
    (newtypeCopyInSem copyInBytes t v).1 =
      fromNativeBytes t (copyInBytes (newtypeSizeBytesSem (primName t) v)).1 := by
  refine ⟨rfl, rfl, ?_, rfl, rfl, rfl⟩
  show (nativeBytes t v).length = newtypeSizeBytesSem (primName t) v
  rw [nativeBytes_length]
  cases t <;> rfl

/-- C9: for the packed scalar newtypes, WriteTo hands the sink exactly
the sizeBytes-byte view aliasing the instance memory and returns the
count the sink reports (converted to int64) together with any sink
error. -/
theorem c9_writeTo_writes_view (t : PrimT) (v : Int)
    (write : List Nat → Nat × Option String) :
    newtypeWriteToSem write t v =
      ((((write (nativeBytes t v)).1 : Nat) : Int), (write (nativeBytes t v)).2) ∧
    (instanceByteView t v).data = nativeBytes t v ∧
    (instanceByteView t v).data.length = newtypeSizeBytesSem (primName t) v ∧
    newtypePackedSem v = true := by
  refine ⟨rfl, rfl, ?_, rfl⟩
  show (nativeBytes t v).length = newtypeSizeBytesSem (primName t) v
  rw [nativeBytes_length]
  cases t <;> rfl

/-- C10: the potentially-non-packed set is populated only on the decode
side: unmarshalScalar adds the field accessor to the as set exactly when
the field type is outside the nine fixed-width primitives, and
marshalScalar never changes the as set for any field type. -/
theorem c10_potentially_nonpacked_only_on_decode
    (g : interfaceGenerator) (accessor typ bufVar : String) :
    (unmarshalScalar g accessor typ bufVar).as =
      (if (scalarSize typ).2 then insertSet accessor g.as else g.as) ∧
    (marshalScalar g accessor typ bufVar).as = g.as := by
  constructor
  · simp only [unmarshalScalar]
    split_ifs <;> first | rfl | simp_all [scalarSize]
  · simp only [marshalScalar]
    split_ifs <;> rfl

end GoMarshal
